import Mathlib

/-!
Verification of the literate.js `untangle` parser.

The definitions below are a shallow embedding of `src/bin/untangle.js` and
`src/unnamed/part_000`.  The two files contain textually identical `untangle`
functions except for one detail: the separator literal pushed into a signature
row is `"::"` in `src/bin/untangle.js` (lines 89 and 94) and `" :: "` in
`src/unnamed/part_000` (lines 101 and 106).  The embedding is therefore
parametrised by that separator string `sep`; `untangle` instantiates it with
`"::"` and `untangleUnnamed` with `" :: "`.

JavaScript regular expressions are embedded as deterministic matching
functions.  Every regex of the source is simple enough that its backtracking
search has a unique result (each greedy character-class run is followed by a
requirement drawn from a disjoint character class, so giving characters back
can never create a match); the comments on each matcher record the regex it
implements and the reasoning.  JavaScript `\s` includes the Unicode whitespace
set together with the line separators U+2028/U+2029, while `.` matches any
character except `\n`, `\r`, U+2028, U+2029; both are modelled exactly.

The mutable `block` variable of the source is set to `undefined` at the end of
`endBlock`; it is modelled as `Option (List String)`, and every operation that
would dereference `undefined` in JavaScript returns `none`.  The driver
`untangleRun` hence produces `Option String`; theorem `c9_totality` proves the
`none` branch unreachable.
-/

namespace Literate

/-- JavaScript `\s`: whitespace characters per ECMA-262 (WhiteSpace and
LineTerminator), as matched by `\s` in a regular expression. -/
def jsWhitespace (c : Char) : Bool :=
  c = ' ' || c = '\t' || c = '\n' || c = '\x0b' || c = '\x0c' || c = '\r' ||
  c = ' ' || c = ' ' || (' ' ≤ c && c ≤ ' ') ||
  c = ' ' || c = ' ' || c = ' ' || c = ' ' ||
  c = '　' || c = '﻿'

/-- Characters that JavaScript `.` (without the `s` flag) does not match. -/
def isLineTerm (c : Char) : Bool :=
  c = '\n' || c = '\r' || c = ' ' || c = ' '

/-- JavaScript `\w`: ASCII letters, digits and underscore. -/
def isWordChar (c : Char) : Bool :=
  ('a' ≤ c && c ≤ 'z') || ('A' ≤ c && c ≤ 'Z') || ('0' ≤ c && c ≤ '9') || c = '_'

/-- Embeds `program.split(/(?:\r\n|\r|\n)/g)` (src/bin/untangle.js line 163), on the
underlying character list.  The alternation prefers `\r\n` over `\r`, and
splitting the empty string yields one empty line, as in JavaScript. -/
def splitLinesAux : List Char → List (List Char)
  | [] => [[]]
  | '\r' :: '\n' :: rest => [] :: splitLinesAux rest
  | '\r' :: rest => [] :: splitLinesAux rest
  | '\n' :: rest => [] :: splitLinesAux rest
  | c :: rest =>
    match splitLinesAux rest with
    | [] => [[c]]
    | l :: ls => (c :: l) :: ls

/-- The line list of a program, as strings. -/
def splitLines (program : String) : List String :=
  (splitLinesAux program.data).map String.mk

/-- Embeds `line.match(/^\s*\/{2,}\s?(.*)$/)` (src/bin/untangle.js line 164):
optional leading whitespace, two or more slashes, at most one further
whitespace character, and the captured remainder.  The capture `(.*)$` only
matches when the remainder contains no line terminator. -/
def matchComment (line : String) : Option String :=
  let l := line.data.dropWhile jsWhitespace
  if (l.takeWhile (fun c => c = '/')).length ≥ 2 then
    let r := l.dropWhile (fun c => c = '/')
    let r :=
      match r with
      | [] => ([] : List Char)
      | c :: cs => if jsWhitespace c then cs else c :: cs
    if r.all (fun c => !(isLineTerm c)) then some (String.mk r) else none
  else none

/-- Embeds `/^\s*$/.test(line)` (src/bin/untangle.js line 123). -/
def matchBlank (line : String) : Bool :=
  line.data.all jsWhitespace

/-- Embeds `line.match(/^\s*([^\s:]+)\s*::(.*)$/)` (src/bin/untangle.js line 88), the
named type signature: returns the captured name and type expression. -/
def matchNamedSig (line : String) : Option (String × String) :=
  let l := line.data.dropWhile jsWhitespace
  let name := l.takeWhile (fun c => !jsWhitespace c && c ≠ ':')
  if name.isEmpty then none
  else
    match (l.dropWhile (fun c => !jsWhitespace c && c ≠ ':')).dropWhile jsWhitespace with
    | ':' :: ':' :: rest =>
      if rest.all (fun c => !(isLineTerm c)) then some (String.mk name, String.mk rest)
      else none
    | _ => none

/-- Embeds `line.match(/^\s+::\s*(.*)$/)` (src/bin/untangle.js line 93), the unnamed
type signature: note the mandatory leading whitespace.  Returns the captured
type expression. -/
def matchUnnamedSig (line : String) : Option String :=
  if (line.data.takeWhile jsWhitespace).isEmpty then none
  else
    match line.data.dropWhile jsWhitespace with
    | ':' :: ':' :: rest =>
      let cap := rest.dropWhile jsWhitespace
      if cap.all (fun c => !(isLineTerm c)) then some (String.mk cap) else none
    | _ => none

/-- Embeds `line.match(/^\s*([\*\+\-])\s*(\S+)\s+\-\s+(.*)$/)` (src/bin/untangle.js
line 101), the parameter-list bullet: returns the marker, the token and the
description. -/
def matchParamList (line : String) : Option (String × String × String) :=
  match line.data.dropWhile jsWhitespace with
  | [] => none
  | m :: r =>
    if m = '*' || m = '+' || m = '-' then
      let r := r.dropWhile jsWhitespace
      let tok := r.takeWhile (fun c => !jsWhitespace c)
      if tok.isEmpty then none
      else
        let r2 := r.dropWhile (fun c => !jsWhitespace c)
        if (r2.takeWhile jsWhitespace).isEmpty then none
        else
          match r2.dropWhile jsWhitespace with
          | '-' :: r3 =>
            if (r3.takeWhile jsWhitespace).isEmpty then none
            else
              let cap := r3.dropWhile jsWhitespace
              if cap.all (fun c => !(isLineTerm c)) then
                some (String.mk [m], String.mk tok, String.mk cap)
              else none
          | _ => none
    else none

/-- Embeds `line.match(/(#+)/)` (src/bin/untangle.js line 104): the length of the
leftmost maximal run of `#` characters, if any. -/
def matchHeader (line : String) : Option Nat :=
  match line.data.dropWhile (fun c => c ≠ '#') with
  | [] => none
  | l => some (l.takeWhile (fun c => c = '#')).length

/-- The prefix of `l` up to and including the last `')'` of `l`, if `l`
contains one; this is what the greedy `\(.*\)` capture keeps after the
opening parenthesis. -/
def lastParen : List Char → Option (List Char)
  | [] => none
  | c :: rest =>
    match lastParen rest with
    | some p => some (c :: p)
    | none => if c = ')' then some [')'] else none

/-- The part of the bound-function attempt after the optional leading dot
(`\.?`) has been consumed: `[^\.\s=]+\s*=\W*function(\(.*\))`. -/
def attemptBoundAfterDot (dot : String) (l1 : List Char) : Option (String × String) :=
  let name := l1.takeWhile (fun c => !jsWhitespace c && c ≠ '.' && c ≠ '=')
  if name.isEmpty then none
  else
    match (l1.dropWhile (fun c => !jsWhitespace c && c ≠ '.' && c ≠ '=')).dropWhile jsWhitespace with
    | '=' :: l4 =>
      let l5 := l4.dropWhile (fun c => !(isWordChar c))
      if List.isPrefixOf (("function").data) l5 then
        match l5.drop 8 with
        | '(' :: l7 =>
          match lastParen (l7.takeWhile (fun c => !(isLineTerm c))) with
          | some p => some (dot ++ String.mk name, String.mk ('(' :: p))
          | none => none
        | _ => none
      else none
    | _ => none

/-- One attempt of `/(\.?[^\.\s=]+)\s*=\W*function(\(.*\))/` at a fixed start
position (src/bin/untangle.js line 127).  Greedy runs are deterministic here:
every character-class run is followed by a test from a disjoint class, so the
backtracking search has this unique outcome. -/
def attemptBound (l : List Char) : Option (String × String) :=
  match l with
  | '.' :: rest => attemptBoundAfterDot (".") rest
  | _ => attemptBoundAfterDot ("") l

/-- Leftmost search for the bound-function pattern: JavaScript advances the
start position one character at a time. -/
def goBound : List Char → Option (String × String)
  | [] => none
  | l@(_ :: rest) =>
    match attemptBound l with
    | some r => some r
    | none => goBound rest

/-- Embeds `line.match(/(\.?[^\.\s=]+)\s*=\W*function(\(.*\))/)` (src/bin/untangle.js
line 127): captured name (with optional leading dot) and parameter list. -/
def matchBound (line : String) : Option (String × String) :=
  goBound line.data

/-- One attempt of `/function\s+([^\s\(]+)\s*(\(.*\))/` at a fixed start
position (src/bin/untangle.js line 132). -/
def attemptNamedFn (l : List Char) : Option (String × String) :=
  if List.isPrefixOf (("function").data) l then
    let l1 := l.drop 8
    if (l1.takeWhile jsWhitespace).isEmpty then none
    else
      let l2 := l1.dropWhile jsWhitespace
      let name := l2.takeWhile (fun c => !jsWhitespace c && c ≠ '(')
      if name.isEmpty then none
      else
        match (l2.dropWhile (fun c => !jsWhitespace c && c ≠ '(')).dropWhile jsWhitespace with
        | '(' :: l5 =>
          match lastParen (l5.takeWhile (fun c => !(isLineTerm c))) with
          | some p => some (String.mk name, String.mk ('(' :: p))
          | none => none
        | _ => none
  else none

/-- Leftmost search for the named-function pattern. -/
def goNamedFn : List Char → Option (String × String)
  | [] => none
  | l@(_ :: rest) =>
    match attemptNamedFn l with
    | some r => some r
    | none => goNamedFn rest

/-- Embeds `line.match(/function\s+([^\s\(]+)\s*(\(.*\))/)` (src/bin/untangle.js
line 132): captured function name and parameter list. -/
def matchNamedFn (line : String) : Option (String × String) :=
  goNamedFn line.data

/-- Embeds `escapeHtml` (src/bin/untangle.js lines 215-220): global replacement of
`<`, `>`, `&`, `"` by their entities, character by character. -/
def escapeHtml (str : String) : String :=
  String.join (str.data.map (fun character =>
    if character = '<' then ("&lt;")
    else if character = '>' then ("&gt;")
    else if character = '&' then ("&amp;")
    else if character = '"' then ("&quot;")
    else String.mk [character]))

/-- Embeds `table` (src/bin/untangle.js lines 205-213): one `<tr>` per row, one
`<td>` per cell, each cell escaped and then formatted. -/
def table (data : List (List String)) (cls : String) (format : String → String) : String :=
  let rows := data.map (fun row =>
    let cells := row.map (fun cell => ("<td>") ++ format (escapeHtml cell) ++ ("</td>"))
    ("<tr>") ++ String.join cells ++ ("</tr>"))
  ("<table class=\"") ++ cls ++ ("\">") ++ String.join rows ++ ("</table>")

/-- The loop of `repeat` (src/bin/untangle.js lines 196-203): `i` counts down
from `times` to `0`, appending `str` each iteration. -/
def repeatLoop (str : String) : Nat → String → String
  | 0, result => result ++ str
  | i + 1, result => repeatLoop str i (result ++ str)

/-- Embeds `repeat` (src/bin/untangle.js lines 196-203): for `times = n ≥ 0` the loop
body runs `n + 1` times.  Named `repeat'` because `repeat` is a reserved
tactic keyword in Lean. -/
def repeat' (str : String) (times : Nat) : String :=
  repeatLoop str times ("")

/-- The parser state of `untangle` (src/bin/untangle.js lines 56-61):
`block` is `none` exactly when the JavaScript variable holds `undefined`. -/
structure UState where
  inBlock : Bool
  sig : List (List String)
  block : Option (List String)
  text : List String
  depth : Nat
  deriving Repr, DecidableEq

/-- Initial state (src/bin/untangle.js lines 56-61). -/
def initState : UState :=
  ⟨true, [], some [], [], 1⟩

/-- The parameter-list / header if-chain of `addLine` (src/bin/untangle.js
lines 100-106): returns the (possibly rewritten) line together with the
(possibly updated) depth. -/
def transformLine (line : String) (depth : Nat) : String × Nat :=
  match matchParamList line with
  | some (marker, tok, desc) => (marker ++ (" `") ++ tok ++ ("` ") ++ desc, depth)
  | none =>
    match matchHeader line with
    | some k => (line, k)
    | none => (line, depth)

/-- Embeds `addSig` (src/bin/untangle.js lines 153-160): when `sig` is non-empty,
push the rendered signature table onto the block and clear `sig`. -/
def addSig (st : UState) : Option UState :=
  if st.sig.isEmpty then some st
  else
    match st.block with
    | none => none
    | some b =>
      some { st with
        block := some (b ++ [table st.sig ("sig") (fun cell => ("<code>") ++ cell ++ ("</code>"))]),
        sig := [] }

/-- Embeds `addLine` (src/bin/untangle.js lines 84-108).  The source guards the
`addSig()` call with `sig.length > 0`; since `addSig` is the identity on an
empty `sig`, calling it unconditionally is the same function.  `sep` is the
separator literal pushed into a signature row: `"::"` in src/bin/untangle.js,
`" :: "` in src/unnamed/part_000 — the only difference between the files. -/
def addLine (sep : String) (st : UState) (line : String) : Option UState :=
  match matchNamedSig line with
  | some (name, typ) => some { st with sig := st.sig ++ [[name, sep, typ]] }
  | none =>
    match matchUnnamedSig line with
    | some typ => some { st with sig := st.sig ++ [[(""), sep, typ]] }
    | none =>
      match addSig st with
      | none => none
      | some st1 =>
        let td := transformLine line st1.depth
        match st1.block with
        | none => none
        | some b => some { st1 with depth := td.2, block := some (b ++ [td.1]) }

/-- Embeds `startBlock` (src/bin/untangle.js lines 71-74). -/
def startBlock (sep : String) (st : UState) (line : String) : Option UState :=
  addLine sep { st with block := some [] } line

/-- Embeds `addBlock` (src/bin/untangle.js lines 144-151): blank separator if the
document is non-empty, then flush any signature into the block, then append
the block's lines to the document. -/
def addBlock (st : UState) : Option UState :=
  match addSig (if st.text.isEmpty then st else { st with text := st.text ++ [("")] }) with
  | none => none
  | some st2 =>
    match st2.block with
    | none => none
    | some b => some { st2 with text := st2.text ++ b }

/-- Embeds `endBlock` (src/bin/untangle.js lines 119-137): blank line flushes;
a bound- or named-function line prepends the synthesized header and flushes;
anything else discards.  In every case `block` ends up `undefined`. -/
def endBlock (st : UState) (line : String) : Option UState :=
  let flushed :=
    if matchBlank line then addBlock st
    else
      match matchBound line with
      | some (name, params) =>
        match st.block with
        | none => none
        | some b =>
          addBlock { st with
            block := some ((repeat' ("#") (st.depth + 1) ++ (" ") ++ name ++ params) :: b) }
      | none =>
        match matchNamedFn line with
        | some (name, params) =>
          match st.block with
          | none => none
          | some b =>
            addBlock { st with
              block := some ((repeat' ("#") (st.depth + 1) ++ (" ") ++ name ++ params) :: b) }
        | none => some st
  match flushed with
  | none => none
  | some st2 => some { st2 with block := none }

/-- The per-line dispatch of the main loop (src/bin/untangle.js lines
163-177). -/
def stepLine (sep : String) (st : UState) (line : String) : Option UState :=
  match matchComment line with
  | some body =>
    if !st.inBlock then startBlock sep { st with inBlock := true, block := some [] } body
    else addLine sep st body
  | none =>
    if st.inBlock then
      match endBlock st line with
      | none => none
      | some st2 => some { st2 with inBlock := false }
    else some st

/-- Folding the per-line dispatch over the line list. -/
def runLines (sep : String) : UState → List String → Option UState
  | st, [] => some st
  | st, line :: rest =>
    match stepLine sep st line with
    | none => none
    | some st2 => runLines sep st2 rest

/-- Embeds `untangle` (src/bin/untangle.js lines 55-183), parametrised by the
signature separator: split into lines, fold, final `endBlock('')` when still
in a block, and join the document with newlines. -/
def untangleRun (sep : String) (program : String) : Option String :=
  match runLines sep initState (splitLines program) with
  | none => none
  | some st =>
    match (if st.inBlock then endBlock st ("") else some st) with
    | none => none
    | some st2 => some (String.intercalate ("\n") st2.text)

/-- Embeds `untangle` of src/bin/untangle.js: separator literal `"::"`.  The `getD`
default is the (unreachable, see `c9_totality`) error branch. -/
def untangle (program : String) : String :=
  (untangleRun ("::") program).getD ("")

/-- Embeds `untangle` of src/unnamed/part_000: separator literal `" :: "`. -/
def untangleUnnamed (program : String) : String :=
  (untangleRun (" :: ") program).getD ("")

/-! ### Helper definitions -/

/-- The signature table exactly as `addSig` renders it (src/bin/untangle.js
lines 155-157). -/
def sigTable (rows : List (List String)) : String :=
  table rows ("sig") (fun cell => ("<code>") ++ cell ++ ("</code>"))

/-- The lines a signature flush appends to a block: nothing when the table is
empty, otherwise the rendered table. -/
def sigSuffix (rows : List (List String)) : List String :=
  if rows.isEmpty then [] else [sigTable rows]

/-- One rendered row of the signature table, with each raw cell HTML-escaped
and only then wrapped in the code span. -/
def sigRow (row : List String) : String :=
  ("<tr>") ++
    String.join (row.map (fun cell =>
      ("<td>") ++ (("<code>") ++ escapeHtml cell ++ ("</code>")) ++ ("</td>"))) ++
  ("</tr>")

/-- Modelled from the claim's words: `copies s k` is the concatenation of
exactly `k` copies of `s`. -/
def copies (s : String) : Nat → String
  | 0 => ("")
  | k + 1 => s ++ copies s k

/-- The parse invariant: whenever the parser is inside a block, the `block`
variable is defined (not the JavaScript `undefined`). -/
def Inv (st : UState) : Prop := st.inBlock = true → st.block.isSome = true

/-- A line whose processing cannot depend on the signature separator: either
it is not a comment line, or its comment body matches neither signature
pattern. -/
def goodLine (line : String) : Bool :=
  match matchComment line with
  | none => true
  | some body => (matchNamedSig body).isNone && (matchUnnamedSig body).isNone

/-- A program none of whose comment bodies are type-signature lines. -/
def noSigComments (p : String) : Bool :=
  (splitLines p).all goodLine

/-! ### Helper lemmas -/

theorem addSig_eq (st : UState) (b : List String) (h : st.block = some b) :
    addSig st = some { st with sig := [], block := some (b ++ sigSuffix st.sig) } := by
  by_cases hs : st.sig.isEmpty
  · have hnil : st.sig = [] := List.isEmpty_iff.mp hs
    cases st
    simp_all [addSig, sigSuffix]
  · cases st
    simp_all [addSig, sigSuffix, sigTable]

theorem addBlock_eq (st : UState) (b : List String) (h : st.block = some b) :
    addBlock st = some { st with
      sig := []
      block := some (b ++ sigSuffix st.sig)
      text := st.text ++ (if st.text.isEmpty then [] else [("")]) ++ (b ++ sigSuffix st.sig) } := by
  unfold addBlock
  by_cases ht : st.text.isEmpty
  · have hnil : st.text = [] := List.isEmpty_iff.mp ht
    rw [if_pos ht, addSig_eq st b h]
    cases st
    simp_all
  · rw [if_neg ht]
    have h2 : ({ st with text := st.text ++ [("")] } : UState).block = some b := h
    rw [addSig_eq _ b h2]
    cases st
    simp_all [ht]

/-- Embeds `repeat` on `"#"`: the loop produces `i + 1` hash characters beyond the
accumulator. -/
theorem repeatLoop_hash_data (i : Nat) :
    ∀ acc : String, (repeatLoop ("#") i acc).data = acc.data ++ List.replicate (i + 1) '#' := by
  induction i with
  | zero => intro acc; simp [repeatLoop, String.data_append]
  | succ j ih =>
    intro acc
    rw [repeatLoop, ih (acc ++ ("#"))]
    simp [String.data_append, List.replicate_succ]

theorem repeat'_hash_data (k : Nat) :
    (repeat' ("#") k).data = List.replicate (k + 1) '#' := by
  simp [repeat', repeatLoop_hash_data]

theorem repeatLoop_copies (s : String) (i : Nat) :
    ∀ acc : String, repeatLoop s i acc = acc ++ copies s (i + 1) := by
  induction i with
  | zero => intro acc; simp [repeatLoop, copies, String.append_empty]
  | succ j ih =>
    intro acc
    rw [repeatLoop, ih (acc ++ s)]
    simp [copies, String.append_assoc]

theorem attemptBoundAfterDot_ws (dot : String) (c : Char) (rest : List Char)
    (h : jsWhitespace c = true) : attemptBoundAfterDot dot (c :: rest) = none := by
  simp [attemptBoundAfterDot, List.takeWhile_cons, h]

theorem goBound_ws (l : List Char) (h : l.all jsWhitespace = true) : goBound l = none := by
  induction l with
  | nil => rfl
  | cons c rest ih =>
    rw [List.all_cons, Bool.and_eq_true] at h
    have ha : attemptBound (c :: rest) = none := by
      unfold attemptBound
      split
      · next heq =>
        injection heq with h1 h2
        subst h1
        exact absurd h.1 (by decide)
      · exact attemptBoundAfterDot_ws _ c rest h.1
    simp [goBound, ha, ih h.2]

theorem matchBound_of_blank (line : String) (h : matchBlank line = true) :
    matchBound line = none :=
  goBound_ws line.data h

theorem attemptNamedFn_ws (c : Char) (rest : List Char)
    (h : jsWhitespace c = true) : attemptNamedFn (c :: rest) = none := by
  have hcf : c ≠ 'f' := by
    intro e
    subst e
    exact absurd h (by decide)
  have hpre : List.isPrefixOf (("function").data) (c :: rest) = false := by
    show List.isPrefixOf ('f' :: ("unction").data) (c :: rest) = false
    simp [List.isPrefixOf]
    intro e
    exact absurd e.symm hcf
  simp [attemptNamedFn, hpre]

theorem goNamedFn_ws (l : List Char) (h : l.all jsWhitespace = true) : goNamedFn l = none := by
  induction l with
  | nil => rfl
  | cons c rest ih =>
    rw [List.all_cons, Bool.and_eq_true] at h
    simp [goNamedFn, attemptNamedFn_ws c rest h.1, ih h.2]

theorem matchNamedFn_of_blank (line : String) (h : matchBlank line = true) :
    matchNamedFn line = none :=
  goNamedFn_ws line.data h

/-- The discard path of `endBlock`: a non-blank, non-function line drops the
block, leaves the document untouched, and leaves the pending signature rows in
place. -/
theorem endBlock_discard (st : UState) (line : String)
    (h1 : matchBlank line = false) (h2 : matchBound line = none)
    (h3 : matchNamedFn line = none) :
    endBlock st line = some { st with block := none } := by
  simp [endBlock, h1, h2, h3]

/-! ### Totality of the parser -/

theorem addSig_isSome (st : UState) (h : st.block.isSome = true) :
    ∃ st', addSig st = some st' ∧ st'.block.isSome = true ∧ st'.inBlock = st.inBlock := by
  obtain ⟨b, hb⟩ := Option.isSome_iff_exists.mp h
  exact ⟨_, addSig_eq st b hb, rfl, rfl⟩

theorem addLine_isSome (sep : String) (st : UState) (line : String)
    (h : st.block.isSome = true) :
    ∃ st', addLine sep st line = some st' ∧ st'.block.isSome = true ∧ st'.inBlock = st.inBlock := by
  unfold addLine
  cases h1 : matchNamedSig line with
  | some v =>
    obtain ⟨name, typ⟩ := v
    exact ⟨_, rfl, h, rfl⟩
  | none =>
    cases h2 : matchUnnamedSig line with
    | some t => exact ⟨_, rfl, h, rfl⟩
    | none =>
      obtain ⟨st1, hs1, hb1, hi1⟩ := addSig_isSome st h
      obtain ⟨b1, hb1'⟩ := Option.isSome_iff_exists.mp hb1
      rw [hs1]
      simp only [hb1']
      exact ⟨_, rfl, rfl, hi1⟩

theorem addBlock_isSome (st : UState) (h : st.block.isSome = true) :
    ∃ st', addBlock st = some st' ∧ st'.block.isSome = true ∧ st'.inBlock = st.inBlock := by
  obtain ⟨b, hb⟩ := Option.isSome_iff_exists.mp h
  exact ⟨_, addBlock_eq st b hb, rfl, rfl⟩

theorem endBlock_isSome (st : UState) (line : String) (h : st.block.isSome = true) :
    ∃ st', endBlock st line = some st' ∧ st'.inBlock = st.inBlock := by
  obtain ⟨b, hb⟩ := Option.isSome_iff_exists.mp h
  by_cases hbl : matchBlank line
  · obtain ⟨st2, h2, _, hi2⟩ := addBlock_isSome st h
    refine ⟨{ st2 with block := none }, ?_, ?_⟩
    · simp [endBlock, hbl, h2]
    · simpa using hi2
  · cases hb2 : matchBound line with
    | some v =>
      obtain ⟨name, params⟩ := v
      obtain ⟨st2, h2, _, hi2⟩ := addBlock_isSome
        { st with block := some ((repeat' ("#") (st.depth + 1) ++ (" ") ++ name ++ params) :: b) }
        (by rfl)
      refine ⟨{ st2 with block := none }, ?_, ?_⟩
      · simp [endBlock, hbl, hb2, hb, h2]
      · simpa using hi2
    | none =>
      cases hn : matchNamedFn line with
      | some v =>
        obtain ⟨name, params⟩ := v
        obtain ⟨st2, h2, _, hi2⟩ := addBlock_isSome
          { st with block := some ((repeat' ("#") (st.depth + 1) ++ (" ") ++ name ++ params) :: b) }
          (by rfl)
        refine ⟨{ st2 with block := none }, ?_, ?_⟩
        · simp [endBlock, hbl, hb2, hb, hn, h2]
        · simpa using hi2
      | none =>
        exact ⟨{ st with block := none }, by simp [endBlock, hbl, hb2, hn], rfl⟩

theorem stepLine_inv (sep : String) (st : UState) (line : String) (h : Inv st) :
    ∃ st', stepLine sep st line = some st' ∧ Inv st' := by
  cases hm : matchComment line with
  | some body =>
    cases hib : st.inBlock with
    | false =>
      obtain ⟨st', h', hb', hi'⟩ :=
        addLine_isSome sep { st with inBlock := true, block := some [] } body (by rfl)
      refine ⟨st', ?_, fun _ => hb'⟩
      simp [stepLine, hm, hib, startBlock]
      simpa [startBlock] using h'
    | true =>
      obtain ⟨st', h', hb', hi'⟩ := addLine_isSome sep st body (h hib)
      refine ⟨st', ?_, fun _ => hb'⟩
      simp [stepLine, hm, hib]
      exact h'
  | none =>
    cases hib : st.inBlock with
    | true =>
      obtain ⟨st2, h2, _⟩ := endBlock_isSome st line (h hib)
      refine ⟨{ st2 with inBlock := false }, ?_, ?_⟩
      · simp [stepLine, hm, hib, h2]
      · intro hx
        simp at hx
    | false =>
      refine ⟨st, ?_, h⟩
      simp [stepLine, hm, hib]

theorem runLines_inv (sep : String) (lines : List String) :
    ∀ st : UState, Inv st → ∃ st', runLines sep st lines = some st' ∧ Inv st' := by
  induction lines with
  | nil => intro st h; exact ⟨st, rfl, h⟩
  | cons line rest ih =>
    intro st h
    obtain ⟨st1, h1, hi1⟩ := stepLine_inv sep st line h
    obtain ⟨st2, h2, hi2⟩ := ih st1 hi1
    refine ⟨st2, ?_, hi2⟩
    rw [runLines, h1]
    exact h2

/-! ### The separator is the only difference between the two variants -/

theorem addLine_sep_agnostic (sep₁ sep₂ : String) (st : UState) (line : String)
    (h1 : matchNamedSig line = none) (h2 : matchUnnamedSig line = none) :
    addLine sep₁ st line = addLine sep₂ st line := by
  simp [addLine, h1, h2]

theorem stepLine_sep_agnostic (sep₁ sep₂ : String) (st : UState) (line : String)
    (h : goodLine line = true) :
    stepLine sep₁ st line = stepLine sep₂ st line := by
  unfold goodLine at h
  cases hm : matchComment line with
  | none => simp [stepLine, hm]
  | some body =>
    rw [hm] at h
    rw [Bool.and_eq_true, Option.isNone_iff_eq_none, Option.isNone_iff_eq_none] at h
    cases hib : st.inBlock with
    | true =>
      simp [stepLine, hm, hib]
      exact addLine_sep_agnostic sep₁ sep₂ st body h.1 h.2
    | false =>
      simp [stepLine, hm, hib, startBlock]
      exact addLine_sep_agnostic sep₁ sep₂ _ body h.1 h.2

theorem runLines_sep_agnostic (sep₁ sep₂ : String) (lines : List String)
    (h : lines.all goodLine = true) :
    ∀ st : UState, runLines sep₁ st lines = runLines sep₂ st lines := by
  induction lines with
  | nil => intro st; rfl
  | cons line rest ih =>
    rw [List.all_cons, Bool.and_eq_true] at h
    intro st
    rw [runLines, runLines, stepLine_sep_agnostic sep₁ sep₂ st line h.1]
    cases hs : stepLine sep₂ st line with
    | none => rfl
    | some st2 => exact ih h.2 st2

/-- Once out of a block, lines with no comment prefix are ignored. -/
theorem runLines_skip (sep : String) (lines : List String)
    (h : ∀ l ∈ lines, matchComment l = none) :
    ∀ st : UState, st.inBlock = false → runLines sep st lines = some st := by
  induction lines with
  | nil => intro st _; rfl
  | cons line rest ih =>
    intro st hib
    have hm : matchComment line = none := h line (by simp)
    have hstep : stepLine sep st line = some st := by simp [stepLine, hm, hib]
    rw [runLines, hstep]
    exact ih (fun l hl => h l (by simp [hl])) st hib

/-! ### Claim theorems -/

/-- Claim C7: the flush-into-document procedure appends a single blank line if
and only if the document already holds at least one line, and then appends
every block line (body first, then any pending signature table) in order; in
particular consecutive flushed blocks are separated by exactly one inserted
blank line and no blank line precedes the first flushed block. -/
theorem c7_flush_separation (st : UState) (b : List String) (h : st.block = some b) :
    addBlock st = some { st with
      sig := []
      block := some (b ++ sigSuffix st.sig)
      text := st.text ++ (if st.text.isEmpty then [] else [("")]) ++ (b ++ sigSuffix st.sig) } :=
  addBlock_eq st b h

/-- Witness for C7: a flush into an empty document inserts no blank line; a
flush into a non-empty document inserts exactly one. -/
theorem c7_flush_separation_witness :
    addBlock ⟨true, [], some [("a")], [], 1⟩ = some ⟨true, [], some [("a")], [("a")], 1⟩
    ∧ addBlock ⟨false, [], some [("b")], [("x")], 2⟩
        = some ⟨false, [], some [("b")], [("x"), (""), ("b")], 2⟩ :=
  ⟨c7_flush_separation _ _ rfl, c7_flush_separation _ _ rfl⟩

/-- Claim C8: an empty signature table produces no block line; a non-empty one
is rendered with rows in insertion order, each raw cell HTML-escaped
(`&lt;`, `&gt;`, `&amp;`, `&quot;`) before being wrapped in the code span; and
a type expression containing `<` and `&` renders with `&lt;` and `&amp;`. -/
theorem c8_table_escaping :
    (∀ st : UState, st.sig = [] → addSig st = some st)
    ∧ (∀ (st : UState) (b : List String), st.block = some b → st.sig ≠ [] →
        addSig st = some { st with
          sig := []
          block := some (b ++
            [("<table class=\"sig\">") ++ String.join (st.sig.map sigRow) ++ ("</table>")]) })
    ∧ escapeHtml ("Maybe<A> & B") = ("Maybe&lt;A&gt; &amp; B") := by
  refine ⟨?_, ?_, ?_⟩
  · intro st h
    simp [addSig, h]
  · intro st b hb hs
    rw [addSig_eq st b hb]
    have h' : st.sig.isEmpty = false := by
      cases hsig : st.sig with
      | nil => exact absurd hsig hs
      | cons a l => rfl
    simp only [sigSuffix, h', Bool.false_eq_true, if_false]
    rfl
  · rfl

/-- Witness for C8: the empty-table case and a concrete one-row table whose
type cell contains `<`. -/
theorem c8_table_escaping_witness :
    addSig ⟨false, [], none, [("t")], 3⟩ = some ⟨false, [], none, [("t")], 3⟩
    ∧ addSig ⟨true, [[("f"), ("::"), ("x<y")]], some [], [], 1⟩
        = some ⟨true, [], some
            [("<table class=\"sig\"><tr><td><code>f</code></td><td><code>::</code></td><td><code>x&lt;y</code></td></tr></table>")],
          [], 1⟩ :=
  ⟨c8_table_escaping.1 _ rfl, c8_table_escaping.2.1 _ _ rfl (by simp)⟩

/-- Claim C9: the parser is total on arbitrary input: for every separator and
every program the run produces a document; the error branch (a dereference of
the `undefined` block) is unreachable. -/
theorem c9_totality (sep program : String) : (untangleRun sep program).isSome = true := by
  obtain ⟨st, hrun, hinv⟩ := runLines_inv sep (splitLines program) initState (fun _ => rfl)
  unfold untangleRun
  rw [hrun]
  cases hib : st.inBlock with
  | true =>
    obtain ⟨st2, h2, _⟩ := endBlock_isSome st ("") (hinv hib)
    simp [hib, h2]
  | false => simp [hib]

/-- Witness for C9 at a concrete program mixing comment, blank and code
lines. -/
theorem c9_totality_witness :
    (untangleRun ("::") ("// a\n\nvar z = 3;")).isSome = true :=
  c9_totality ("::") ("// a\n\nvar z = 3;")

/-- Claim C10: `repeat(s, n)` returns the concatenation of exactly `n + 1`
copies of `s` (not `n`), and consequently every synthesized function header
line begins with `depth + 2` hash characters (identical code in both source
variants). -/
theorem c10_repeat :
    (∀ (s : String) (n : Nat), repeat' s n = copies s (n + 1))
    ∧ ∀ (d : Nat) (name params : String),
        (repeat' ("#") (d + 1) ++ (" ") ++ name ++ params).data
          = List.replicate (d + 2) '#' ++ ' ' :: (name ++ params).data := by
  constructor
  · intro s n
    rw [repeat', repeatLoop_copies s n ("")]
    simp
  · intro d name params
    have hsp : ((" ") : String).data = [' '] := rfl
    simp [String.data_append, repeat'_hash_data, hsp]

/-- Witness for C10: three copies from `repeat(s, 2)`, and a header at depth 1
starting with three hashes. -/
theorem c10_repeat_witness :
    repeat' ("ab") 2 = copies ("ab") 3
    ∧ (repeat' ("#") 2 ++ (" ") ++ ("f") ++ ("(x)")).data
        = List.replicate 3 '#' ++ ' ' :: ((("f") ++ ("(x)")).data) :=
  ⟨c10_repeat.1 ("ab") 2, c10_repeat.2 1 ("f") ("(x)")⟩

/-- Claim C1 counterexample: a comment block followed by
`foo.bar = function(x, y) {` flushes with header `### .bar(x, y)` — three
hashes (Depth + 2, not Depth + 1) and captured name `.bar`
(not `foo.bar`) — so the claimed `## foo.bar(x, y)` header is wrong. -/
theorem c1_counterexample :
    untangle ("// doc\nfoo.bar = function(x, y) \x7b") = ("### .bar(x, y)\ndoc")
    ∧ untangle ("// doc\nfoo.bar = function(x, y) \x7b") ≠ ("## foo.bar(x, y)\ndoc") :=
  ⟨rfl, by decide⟩

/-- Claim C1 (amended): a comment block terminated by a line matching the
bound-function shape (or, failing that, the named-function shape) flushes with
a synthesized header `repeat('#', depth + 1) + ' ' + name + params` prepended
— a line beginning with Depth + 2 hash characters — followed by the block's
lines and any pending signature table. -/
theorem c1_header_synthesis (st : UState) (line : String) (b : List String)
    (name params : String) (hb : st.block = some b)
    (hm : matchBound line = some (name, params)
      ∨ (matchBound line = none ∧ matchNamedFn line = some (name, params))) :
    endBlock st line = some { st with
      sig := []
      block := none
      text := st.text ++ (if st.text.isEmpty then [] else [("")]) ++
        ((repeat' ("#") (st.depth + 1) ++ (" ") ++ name ++ params) :: (b ++ sigSuffix st.sig)) }
    ∧ (repeat' ("#") (st.depth + 1) ++ (" ") ++ name ++ params).data
        = List.replicate (st.depth + 2) '#' ++ ' ' :: (name ++ params).data := by
  constructor
  · have hbl : matchBlank line = false := by
      cases hq : matchBlank line with
      | false => rfl
      | true =>
        cases hm with
        | inl h1 =>
          rw [matchBound_of_blank line hq] at h1
          exact absurd h1 (by simp)
        | inr h2 =>
          have h22 := h2.2
          rw [matchNamedFn_of_blank line hq] at h22
          exact absurd h22 (by simp)
    have hAB := addBlock_eq
      { st with block := some ((repeat' ("#") (st.depth + 1) ++ (" ") ++ name ++ params) :: b) }
      _ rfl
    cases hm with
    | inl h1 => simp [endBlock, hbl, h1, hb, hAB]
    | inr h2 => simp [endBlock, hbl, h2.1, h2.2, hb, hAB]
  · have hsp : ((" ") : String).data = [' '] := rfl
    simp [String.data_append, repeat'_hash_data, hsp]

/-- Witness for the amended C1 at a concrete bound-function line. -/
theorem c1_header_synthesis_witness :
    endBlock ⟨true, [], some [("doc")], [], 1⟩ ("f = function(x) \x7b")
        = some ⟨true, [], none, [("### f(x)"), ("doc")], 1⟩
    ∧ (repeat' ("#") 2 ++ (" ") ++ ("f") ++ ("(x)")).data
        = List.replicate 3 '#' ++ ' ' :: ((("f") ++ ("(x)")).data) :=
  c1_header_synthesis ⟨true, [], some [("doc")], [], 1⟩ ("f = function(x) \x7b")
    [("doc")] ("f") ("(x)") rfl (Or.inl rfl)

/-- Claim C2 counterexample: an input with no comment-prefix line at all whose
first line is a function declaration yields a non-empty document (the parser
starts primed in a block, so the empty leading block flushes with a synthesized
header). -/
theorem c2_counterexample :
    untangle ("function f(x) \x7b") = ("### f(x)")
    ∧ untangle ("function f(x) \x7b") ≠ ("") :=
  ⟨rfl, by decide⟩

/-- Claim C2 (amended): for an input none of whose lines matches the
comment-prefix pattern, the document is determined by the first line alone: a
synthesized header when that line matches the bound- or named-function shape,
and the empty document otherwise. -/
theorem c2_no_comment_document (p l₀ : String) (rest : List String)
    (hsplit : splitLines p = l₀ :: rest)
    (h0 : matchComment l₀ = none)
    (hrest : ∀ l ∈ rest, matchComment l = none) :
    untangle p =
      (if matchBlank l₀ then ("")
       else
         match matchBound l₀ with
         | some (name, params) => repeat' ("#") 2 ++ (" ") ++ name ++ params
         | none =>
           match matchNamedFn l₀ with
           | some (name, params) => repeat' ("#") 2 ++ (" ") ++ name ++ params
           | none => ("")) := by
  unfold untangle untangleRun
  rw [hsplit]
  have hint : ∀ x : String, ("\n").intercalate [x] = x := fun x => rfl
  have hint0 : ("\n").intercalate [] = ("") := rfl
  by_cases hbl : matchBlank l₀
  · have hstep : stepLine ("::") initState l₀ = some ⟨false, [], none, [], 1⟩ := by
      have hAB : addBlock ⟨true, [], some [], [], 1⟩ = some ⟨true, [], some [], [], 1⟩ := rfl
      simp [stepLine, h0, endBlock, hbl, initState, hAB]
    have hskip := runLines_skip ("::") rest hrest ⟨false, [], none, [], 1⟩ rfl
    rw [runLines, hstep]
    simp [hskip, hbl, hint0]
  · cases hbm : matchBound l₀ with
    | some v =>
      obtain ⟨name, params⟩ := v
      have hstep : stepLine ("::") initState l₀
          = some ⟨false, [], none, [repeat' ("#") 2 ++ (" ") ++ name ++ params], 1⟩ := by
        have hAB : addBlock ⟨true, [], some [(repeat' ("#") 2 ++ (" ") ++ name ++ params)], [], 1⟩
            = some ⟨true, [], some [(repeat' ("#") 2 ++ (" ") ++ name ++ params)],
                [(repeat' ("#") 2 ++ (" ") ++ name ++ params)], 1⟩ := rfl
        simp [stepLine, h0, endBlock, hbl, hbm, initState, hAB]
      have hskip := runLines_skip ("::") rest hrest
        ⟨false, [], none, [repeat' ("#") 2 ++ (" ") ++ name ++ params], 1⟩ rfl
      rw [runLines, hstep]
      simp [hskip, hbl, hbm, hint]
    | none =>
      cases hn : matchNamedFn l₀ with
      | some v =>
        obtain ⟨name, params⟩ := v
        have hstep : stepLine ("::") initState l₀
            = some ⟨false, [], none, [repeat' ("#") 2 ++ (" ") ++ name ++ params], 1⟩ := by
          have hAB : addBlock ⟨true, [], some [(repeat' ("#") 2 ++ (" ") ++ name ++ params)], [], 1⟩
              = some ⟨true, [], some [(repeat' ("#") 2 ++ (" ") ++ name ++ params)],
                  [(repeat' ("#") 2 ++ (" ") ++ name ++ params)], 1⟩ := rfl
          simp [stepLine, h0, endBlock, hbl, hbm, hn, initState, hAB]
        have hskip := runLines_skip ("::") rest hrest
          ⟨false, [], none, [repeat' ("#") 2 ++ (" ") ++ name ++ params], 1⟩ rfl
        rw [runLines, hstep]
        simp [hskip, hbl, hbm, hn, hint]
      | none =>
        have hstep : stepLine ("::") initState l₀ = some ⟨false, [], none, [], 1⟩ := by
          simp [stepLine, h0, endBlock, hbl, hbm, hn, initState]
        have hskip := runLines_skip ("::") rest hrest ⟨false, [], none, [], 1⟩ rfl
        rw [runLines, hstep]
        simp [hskip, hbl, hbm, hn, hint0]

/-- Witness for the amended C2: a one-line function-only input produces
exactly the synthesized header. -/
theorem c2_no_comment_document_witness :
    untangle ("function f(y) \x7b") = ("### f(y)") :=
  c2_no_comment_document ("function f(y) \x7b") ("function f(y) \x7b") [] rfl rfl
    (by simp)

/-- Claim C3 counterexample: signature rows pending when a block is discarded
by a non-blank non-function line are not cleared; they survive and are
rendered into the next flushed block. -/
theorem c3_counterexample :
    untangle ("// a :: T\nvar x = 1;\n// doc")
        = ("<table class=\"sig\"><tr><td><code>a</code></td><td><code>::</code></td><td><code> T</code></td></tr></table>\ndoc")
    ∧ (sigTable [[("a"), ("::"), (" T")]])
        ∈ splitLines (untangle ("// a :: T\nvar x = 1;\n// doc")) :=
  ⟨rfl, by decide⟩

/-- Claim C3 (amended): a non-signature comment line flushes the pending
signature table into the block before the line itself is appended; but the
discard path of block termination leaves pending signature rows in place, so
they can survive into a later block. -/
theorem c3_signature_flush :
    (∀ (sep : String) (st : UState) (line : String) (b : List String),
      st.block = some b → matchNamedSig line = none → matchUnnamedSig line = none →
      addLine sep st line = some { st with
        sig := []
        depth := (transformLine line st.depth).2
        block := some ((b ++ sigSuffix st.sig) ++ [(transformLine line st.depth).1]) })
    ∧ ∀ (st : UState) (line : String),
        matchBlank line = false → matchBound line = none → matchNamedFn line = none →
        endBlock st line = some { st with block := none } := by
  constructor
  · intro sep st line b hb h1 h2
    simp [addLine, h1, h2, addSig_eq st b hb]
  · exact fun st line h1 h2 h3 => endBlock_discard st line h1 h2 h3

/-- Witness for the amended C3: the flush-before-processing case and the
discard case that keeps the pending row. -/
theorem c3_signature_flush_witness :
    addLine ("::") ⟨true, [[("a"), ("::"), (" T")]], some [], [], 1⟩ ("doc")
        = some ⟨true, [], some [(sigTable [[("a"), ("::"), (" T")]]), ("doc")], [], 1⟩
    ∧ endBlock ⟨true, [[("a"), ("::"), (" T")]], some [], [], 1⟩ ("var x = 1;")
        = some ⟨true, [[("a"), ("::"), (" T")]], none, [], 1⟩ :=
  ⟨c3_signature_flush.1 ("::") _ ("doc") [] rfl rfl rfl,
   c3_signature_flush.2 _ ("var x = 1;") rfl rfl rfl⟩

/-- Claim C4 counterexample: a block containing a type-signature line and
discarded by `var y = 2;` still contributes a rendered signature table to the
document (through the next flushed block), so it does not contribute zero
lines. -/
theorem c4_counterexample :
    untangle ("// b :: U\nvar y = 2;\n// note")
        = ("<table class=\"sig\"><tr><td><code>b</code></td><td><code>::</code></td><td><code> U</code></td></tr></table>\nnote")
    ∧ untangle ("// b :: U\nvar y = 2;\n// note") ≠ ("note")
    ∧ (sigTable [[("b"), ("::"), (" U")]])
        ∈ splitLines (untangle ("// b :: U\nvar y = 2;\n// note")) :=
  ⟨rfl, by decide, by decide⟩

/-- Claim C4 (amended): the discard path contributes no line to the document
and drops the block, but preserves the pending signature rows (which a later
flush may render). -/
theorem c4_discard (st : UState) (line : String)
    (h1 : matchBlank line = false) (h2 : matchBound line = none)
    (h3 : matchNamedFn line = none) :
    (endBlock st line).map UState.text = some st.text
    ∧ (endBlock st line).map UState.sig = some st.sig
    ∧ (endBlock st line).map UState.block = some none := by
  simp [endBlock_discard st line h1 h2 h3]

/-- Witness for the amended C4 at a concrete discarding line. -/
theorem c4_discard_witness :
    (endBlock ⟨true, [[("b"), ("::"), (" U")]], some [("body")], [("prev")], 2⟩
        ("var y = 2;")).map UState.text = some [("prev")]
    ∧ (endBlock ⟨true, [[("b"), ("::"), (" U")]], some [("body")], [("prev")], 2⟩
        ("var y = 2;")).map UState.sig = some [[("b"), ("::"), (" U")]]
    ∧ (endBlock ⟨true, [[("b"), ("::"), (" U")]], some [("body")], [("prev")], 2⟩
        ("var y = 2;")).map UState.block = some none :=
  c4_discard _ ("var y = 2;") rfl rfl rfl

/-- Claim C5 counterexample: on a block ending in a signature line flushed by
a bound-function line, both variants place the synthesized header first and
the signature table after it — the outputs differ only in the rendered
separator cell, not in header placement. -/
theorem c5_counterexample :
    untangle ("// f :: A\nf = function(x) \x7b")
        = ("### f(x)\n<table class=\"sig\"><tr><td><code>f</code></td><td><code>::</code></td><td><code> A</code></td></tr></table>")
    ∧ untangleUnnamed ("// f :: A\nf = function(x) \x7b")
        = ("### f(x)\n<table class=\"sig\"><tr><td><code>f</code></td><td><code> :: </code></td><td><code> A</code></td></tr></table>")
    ∧ untangle ("// f :: A\nf = function(x) \x7b")
        ≠ untangleUnnamed ("// f :: A\nf = function(x) \x7b") :=
  ⟨rfl, rfl, by decide⟩

/-- Claim C5 (amended): the two `untangle` variants are not extensionally
equal, and their only behavioural difference is the signature-separator
literal: on any input none of whose comment bodies is a signature line the two
variants agree. -/
theorem c5_variants :
    untangle ("// f :: B\nf2 = function(y) \x7b")
        ≠ untangleUnnamed ("// f :: B\nf2 = function(y) \x7b")
    ∧ ∀ p : String, noSigComments p = true → untangle p = untangleUnnamed p := by
  constructor
  · decide
  · intro p h
    unfold untangle untangleUnnamed untangleRun
    rw [runLines_sep_agnostic ("::") (" :: ") (splitLines p) h initState]

/-- Witness for the amended C5 on a signature-free program. -/
theorem c5_variants_witness :
    untangle ("// plain note\n\nvar q = 1;")
        = untangleUnnamed ("// plain note\n\nvar q = 1;") :=
  c5_variants.2 ("// plain note\n\nvar q = 1;") (by decide)

/-- Claim C6 counterexample: the body `:: Type2` (no leading whitespace) does
not match the unnamed-signature pattern, which requires at least one leading
whitespace character; the one-row table is flushed and the raw line appears in
the block. -/
theorem c6_counterexample :
    untangle ("// name :: Type -> Type\n// :: Type2")
        = ("<table class=\"sig\"><tr><td><code>name</code></td><td><code>::</code></td><td><code> Type -&gt; Type</code></td></tr></table>\n:: Type2")
    ∧ (":: Type2") ∈ splitLines (untangle ("// name :: Type -> Type\n// :: Type2")) :=
  ⟨rfl, by decide⟩

/-- Claim C6 (amended): with the second body ` :: Type2` (note the mandatory
leading whitespace), both lines are captured as the two rows of a single
table, the second row with an empty name cell, rendered exactly once at block
end; and a table pending when a non-signature comment line arrives is rendered
once, before that line. -/
theorem c6_signature_rows :
    untangle ("// name :: Type -> Type\n//  :: Type2")
        = ("<table class=\"sig\"><tr><td><code>name</code></td><td><code>::</code></td><td><code> Type -&gt; Type</code></td></tr><tr><td><code></code></td><td><code>::</code></td><td><code>Type2</code></td></tr></table>")
    ∧ untangle ("// x :: T\n// rest")
        = ("<table class=\"sig\"><tr><td><code>x</code></td><td><code>::</code></td><td><code> T</code></td></tr></table>\nrest") :=
  ⟨rfl, rfl⟩

end Literate
